import Mathlib

/-!
Shallow embedding of the simulation core of src/main.js (a 3D particle
Lenia system): kernel math, pairwise field computation, growth
integration, periodic boundary wrap and particle-store creation,
together with proofs of the specified properties.

Real-number (JS float) arithmetic is embedded as arithmetic on the real
numbers.  The mutable particle array is embedded as a list of particle
records; each in-place loop of the source becomes a map or a fold over
that list, in the source's iteration order.  The source's loops run over
the indices of the particle array (whose length is the configured
particle count), so the embedding folds over the index pairs of the
list.  Rendering, scene and UI code is out of scope, as is the mesh
handle stored on each particle.
-/

namespace Emergence

noncomputable section

/-- Three-component real vector: the embedding of THREE.Vector3 as the
simulation uses it (componentwise arithmetic and Euclidean length). -/
@[ext]
structure Vec3 where
  x : ℝ
  y : ℝ
  z : ℝ

instance : Zero Vec3 := ⟨⟨0, 0, 0⟩⟩

instance : Add Vec3 := ⟨fun a b => ⟨a.x + b.x, a.y + b.y, a.z + b.z⟩⟩

instance : Sub Vec3 := ⟨fun a b => ⟨a.x - b.x, a.y - b.y, a.z - b.z⟩⟩

instance : Neg Vec3 := ⟨fun a => ⟨-a.x, -a.y, -a.z⟩⟩

instance : SMul ℝ Vec3 := ⟨fun c a => ⟨c * a.x, c * a.y, c * a.z⟩⟩

instance : Inhabited Vec3 := ⟨0⟩

/-- Euclidean length, as computed by THREE.Vector3.length. -/
def Vec3.length (v : Vec3) : ℝ :=
  Real.sqrt (v.x * v.x + v.y * v.y + v.z * v.z)

/-- The simulation configuration (the fields of the source's config
object that the simulation core reads; rendering-only fields omitted). -/
structure Config where
  particleCount : ℤ
  worldSize : ℝ
  initialSpread : ℝ
  mu_k : ℝ
  sigma_k : ℝ
  w_k : ℝ
  mu_g : ℝ
  sigma_g : ℝ
  c_rep : ℝ
  dt : ℝ
  damping : ℝ

/-- Per-particle state: position, velocity and the four per-step field
accumulators, exactly the numeric fields of the source's Particle class
(the mesh handle is rendering state and is omitted). -/
@[ext]
structure Particle where
  position : Vec3
  velocity : Vec3
  R_val : ℝ
  U_val : ℝ
  R_grad : Vec3
  U_grad : Vec3

instance : Inhabited Particle := ⟨⟨0, 0, 0, 0, 0, 0⟩⟩

/-- Fast exponential approximation from src/main.js lines 130-135:
t = 1 + x/32, then five in-place squarings, yielding (1 + x/32)^32. -/
def fastExp (x : ℝ) : ℝ :=
  let t0 := 1 + x / 32
  let t1 := t0 * t0
  let t2 := t1 * t1
  let t3 := t2 * t2
  let t4 := t3 * t3
  t4 * t4

/-- Lenia kernel function (src/main.js lines 146-153): returns the pair
(value, derivative) with value = w / fastExp(t*t) for t = (r-mu)/sigma
and derivative = -2 t value / sigma. -/
def peakFunction (r mu sigma w : ℝ) : ℝ × ℝ :=
  let t := (r - mu) / sigma
  let y_val := w / fastExp (t * t)
  (y_val, -2 * t * y_val / sigma)

/-- Repulsion function (src/main.js lines 161-166): for t = max(1-r, 0)
returns the pair (0.5 c_rep t^2, -c_rep t). -/
def repulsionFunction (r c_rep : ℝ) : ℝ × ℝ :=
  let t := max (1 - r) 0
  (0.5 * c_rep * t * t, -c_rep * t)

/-- The per-particle reset at the top of computeFields (src/main.js
lines 178-185): self-term scalar values, zero gradients. -/
def resetFields (cfg : Config) (p : Particle) : Particle :=
  { p with
    R_val := (repulsionFunction 0 cfg.c_rep).1
    U_val := (peakFunction 0 cfg.mu_k cfg.sigma_k cfg.w_k).1
    R_grad := 0
    U_grad := 0 }

/-- The body of the pair loop of computeFields (src/main.js lines
190-234) acting on one unordered pair: given the current states of
particles p1 (index i) and p2 (index j, j > i), produce their updated
states.  diff points from p2 to p1, r is the floored distance, the
repulsion contribution is gated on r < 1 and the kernel contribution is
unconditional. -/
def pairUpdate (cfg : Config) (p1 p2 : Particle) : Particle × Particle :=
  let diff := p1.position - p2.position
  let r := diff.length + 1e-20
  let norm_rx := diff.x / r
  let norm_ry := diff.y / r
  let norm_rz := diff.z / r
  let rep := repulsionFunction r cfg.c_rep
  let q1 :=
    if r < 1 then
      { p1 with
        R_grad := ⟨p1.R_grad.x + norm_rx * rep.2, p1.R_grad.y + norm_ry * rep.2,
          p1.R_grad.z + norm_rz * rep.2⟩
        R_val := p1.R_val + rep.1 }
    else p1
  let q2 :=
    if r < 1 then
      { p2 with
        R_grad := ⟨p2.R_grad.x - norm_rx * rep.2, p2.R_grad.y - norm_ry * rep.2,
          p2.R_grad.z - norm_rz * rep.2⟩
        R_val := p2.R_val + rep.1 }
    else p2
  let ker := peakFunction r cfg.mu_k cfg.sigma_k cfg.w_k
  ({ q1 with
      U_grad := ⟨q1.U_grad.x + norm_rx * ker.2, q1.U_grad.y + norm_ry * ker.2,
        q1.U_grad.z + norm_rz * ker.2⟩
      U_val := q1.U_val + ker.1 },
   { q2 with
      U_grad := ⟨q2.U_grad.x - norm_rx * ker.2, q2.U_grad.y - norm_ry * ker.2,
        q2.U_grad.z - norm_rz * ker.2⟩
      U_val := q2.U_val + ker.1 })

/-- One iteration of the pair loop on the particle list: read particles
i and j, update them through pairUpdate, and write both back. -/
def applyPair (cfg : Config) (ps : List Particle) (i j : ℕ) : List Particle :=
  let q := pairUpdate cfg (ps.getD i default) (ps.getD j default)
  (ps.set i q.1).set j q.2

/-- The index pairs visited by the double loop of computeFields, in
source order: i from 0 to n-1, j from i+1 to n-1. -/
def allPairs (n : ℕ) : List (ℕ × ℕ) :=
  (List.range n).flatMap (fun i => ((List.range n).drop (i + 1)).map (fun j => (i, j)))

/-- Field computation (src/main.js lines 174-237): reset every particle
to its self-term, then fold the pair loop over all unordered index
pairs in source order. -/
def computeFields (cfg : Config) (ps : List Particle) : List Particle :=
  (allPairs ps.length).foldl (fun acc ij => applyPair cfg acc ij.1 ij.2)
    (ps.map (resetFields cfg))

/-- The force of src/main.js lines 252-257: growth derivative at the
accumulated potential, times the potential gradient, minus the
repulsion gradient. -/
def particleForce (cfg : Config) (p : Particle) : Vec3 :=
  (peakFunction p.U_val cfg.mu_g cfg.sigma_g 1).2 • p.U_grad - p.R_grad

/-- The velocity loop body of simulationStep (src/main.js lines
249-264): v becomes damping * (v + force * dt). -/
def integrateVelocity (cfg : Config) (p : Particle) : Particle :=
  { p with velocity := cfg.damping • (p.velocity + cfg.dt • particleForce cfg p) }

/-- The per-axis periodic wrap of src/main.js lines 271-277: one
conditional increment by worldSize, then one conditional decrement
(the second test reads the possibly already incremented value). -/
def wrapCoord (worldSize x : ℝ) : ℝ :=
  let halfWorld := worldSize / 2
  let x1 := if x < -halfWorld then x + worldSize else x
  if x1 > halfWorld then x1 - worldSize else x1

/-- Componentwise boundary wrap of a position vector. -/
def wrapVec (worldSize : ℝ) (v : Vec3) : Vec3 :=
  ⟨wrapCoord worldSize v.x, wrapCoord worldSize v.y, wrapCoord worldSize v.z⟩

/-- The position loop body of simulationStep (src/main.js lines
267-278): move by velocity * dt, then wrap each axis. -/
def moveWrap (cfg : Config) (p : Particle) : Particle :=
  { p with position := wrapVec cfg.worldSize (p.position + cfg.dt • p.velocity) }

/-- One simulation step (src/main.js lines 243-279): compute fields,
then the velocity loop over all particles, then the position/wrap loop
over all particles. -/
def simulationStep (cfg : Config) (ps : List Particle) : List Particle :=
  ((computeFields cfg ps).map (integrateVelocity cfg)).map (moveWrap cfg)

/-- n consecutive simulation steps. -/
def stepN (cfg : Config) : ℕ → List Particle → List Particle
  | 0, ps => ps
  | n + 1, ps => stepN cfg n (simulationStep cfg ps)

/-- One freshly constructed particle (the Particle constructor,
src/main.js lines 34-52): position is (random - 0.5) * initialSpread
per component, where rand packs the three Math.random() draws; velocity
and all four field accumulators start at zero. -/
def mkParticle (cfg : Config) (rand : Vec3) : Particle :=
  { position := ⟨(rand.x - 0.5) * cfg.initialSpread, (rand.y - 0.5) * cfg.initialSpread,
      (rand.z - 0.5) * cfg.initialSpread⟩
    velocity := 0
    R_val := 0
    U_val := 0
    R_grad := 0
    U_grad := 0 }

/-- Particle-store creation (initParticles, src/main.js lines 82-109):
the loop runs for i = 0 .. particleCount-1 (so not at all when the
count is negative) and pushes a fresh particle each time; rand is the
stream of Math.random() triples.  The function performs no
configuration validation and cannot fail. -/
def initParticles (cfg : Config) (rand : ℕ → Vec3) : List Particle :=
  (List.range cfg.particleCount.toNat).map (fun i => mkParticle cfg (rand i))

/-- Particle p, read at index k of a store (default particle when out
of range). -/
def pAt (ps : List Particle) (k : ℕ) : Particle := ps.getD k default

/-- Two particle states that agree on position and on all four field
accumulators (velocity is unconstrained). -/
def SameFields (p q : Particle) : Prop :=
  p.position = q.position ∧ p.R_val = q.R_val ∧ p.U_val = q.U_val ∧
    p.R_grad = q.R_grad ∧ p.U_grad = q.U_grad

/-- A particle with its velocity blanked out: two particles are
SameFields exactly when their velocity-blanked forms are equal. -/
def eraseVel (p : Particle) : Particle := { p with velocity := 0 }

/-- Mirror relation about the origin: position, velocity and both
gradients of the second particle are the negations of the first's, and
the scalar accumulators agree. -/
def MirrorP (a b : Particle) : Prop :=
  b.position = -a.position ∧ b.velocity = -a.velocity ∧
    b.R_val = a.R_val ∧ b.U_val = a.U_val ∧
    b.R_grad = -a.R_grad ∧ b.U_grad = -a.U_grad

/-- The source's hardcoded configuration (src/main.js lines 6-22). -/
def sourceConfig : Config :=
  { particleCount := 200
    worldSize := 25.0
    initialSpread := 12.0
    mu_k := 4.0
    sigma_k := 1.0
    w_k := 0.022
    mu_g := 0.6
    sigma_g := 0.15
    c_rep := 1.0
    dt := 0.1
    damping := 0.98 }

/-- A configuration that the specification calls invalid (sigma_k is
negative), with a positive particle count. -/
def badSigmaConfig : Config :=
  { sourceConfig with particleCount := 3, sigma_k := -1.0 }

/-- A configuration with a negative particle count (the case where
max(particleCount, 0) differs from particleCount). -/
def negCountConfig : Config :=
  { sourceConfig with particleCount := -1 }

/-- A configuration used to exhibit the boundary-wrap endpoint: unit
time step and no damping, so one step moves a lone particle by exactly
its velocity. -/
def wrapCexConfig : Config :=
  { sourceConfig with particleCount := 1, dt := 1.0, damping := 1.0 }

/-- A lone particle at the origin whose velocity carries it to exactly
worldSize/2 in one step of wrapCexConfig. -/
def wrapCexParticle : Particle :=
  { position := 0, velocity := ⟨12.5, 0, 0⟩, R_val := 0, U_val := 0,
    R_grad := 0, U_grad := 0 }

/-- A resting particle at the origin. -/
def originParticle : Particle :=
  { position := 0, velocity := 0, R_val := 0, U_val := 0,
    R_grad := 0, U_grad := 0 }

/-- The resting origin particle with a different velocity and different
accumulator contents (used to show the field computation ignores both). -/
def movingParticle : Particle :=
  { position := 0, velocity := ⟨1, 0, 0⟩, R_val := 5, U_val := 7,
    R_grad := ⟨1, 1, 1⟩, U_grad := ⟨2, 2, 2⟩ }

/-- One of a mirror-symmetric pair of resting particles. -/
def mirrorA : Particle :=
  { position := ⟨1, 2, 3⟩, velocity := 0, R_val := 0, U_val := 0,
    R_grad := 0, U_grad := 0 }

/-- The mirror image of mirrorA about the origin. -/
def mirrorB : Particle :=
  { position := ⟨-1, -2, -3⟩, velocity := 0, R_val := 0, U_val := 0,
    R_grad := 0, U_grad := 0 }

/-! ### Componentwise lemmas for Vec3 -/

@[simp]
theorem Vec3.zero_x : (0 : Vec3).x = 0 := rfl

@[simp]
theorem Vec3.zero_y : (0 : Vec3).y = 0 := rfl

@[simp]
theorem Vec3.zero_z : (0 : Vec3).z = 0 := rfl

@[simp]
theorem Vec3.add_x (a b : Vec3) : (a + b).x = a.x + b.x := rfl

@[simp]
theorem Vec3.add_y (a b : Vec3) : (a + b).y = a.y + b.y := rfl

@[simp]
theorem Vec3.add_z (a b : Vec3) : (a + b).z = a.z + b.z := rfl

@[simp]
theorem Vec3.sub_x (a b : Vec3) : (a - b).x = a.x - b.x := rfl

@[simp]
theorem Vec3.sub_y (a b : Vec3) : (a - b).y = a.y - b.y := rfl

@[simp]
theorem Vec3.sub_z (a b : Vec3) : (a - b).z = a.z - b.z := rfl

@[simp]
theorem Vec3.neg_x (a : Vec3) : (-a).x = -a.x := rfl

@[simp]
theorem Vec3.neg_y (a : Vec3) : (-a).y = -a.y := rfl

@[simp]
theorem Vec3.neg_z (a : Vec3) : (-a).z = -a.z := rfl

@[simp]
theorem Vec3.smul_x (c : ℝ) (a : Vec3) : (c • a).x = c * a.x := rfl

@[simp]
theorem Vec3.smul_y (c : ℝ) (a : Vec3) : (c • a).y = c * a.y := rfl

@[simp]
theorem Vec3.smul_z (c : ℝ) (a : Vec3) : (c • a).z = c * a.z := rfl

/-- The five squarings of fastExp compute the 32nd power. -/
theorem fastExp_eq_pow (x : ℝ) : fastExp x = (1 + x / 32) ^ 32 := by
  simp only [fastExp]
  ring

/-! ### Indexing lemmas for the particle store -/

theorem pAt_def (ps : List Particle) (k : ℕ) : pAt ps k = ps.getD k default := rfl

theorem pAt_of_le (ps : List Particle) (k : ℕ) (h : ps.length ≤ k) :
    pAt ps k = default := by
  simp [pAt, List.getD_eq_getElem?_getD, List.getElem?_len_le h]

theorem pAt_map_lt (f : Particle → Particle) (ps : List Particle) (k : ℕ)
    (hk : k < ps.length) : pAt (ps.map f) k = f (pAt ps k) := by
  simp [pAt, List.getD_eq_getElem?_getD, List.getElem?_map,
    List.getElem?_eq_getElem hk]

theorem pAt_set (ps : List Particle) (i k : ℕ) (a : Particle) :
    pAt (ps.set i a) k = if i = k ∧ i < ps.length then a else pAt ps k := by
  simp only [pAt, List.getD_eq_getElem?_getD, List.getElem?_set]
  by_cases hik : i = k
  · subst hik
    by_cases hi : i < ps.length
    · simp [hi]
    · simp [hi, List.getElem?_len_le (not_lt.mp hi)]
  · simp [hik]

/-! ### Frame lemmas for one pair interaction -/

/-- pairUpdate touches neither position nor velocity of either
particle. -/
theorem pairUpdate_posvel (cfg : Config) (p1 p2 : Particle) :
    (pairUpdate cfg p1 p2).1.position = p1.position ∧
    (pairUpdate cfg p1 p2).1.velocity = p1.velocity ∧
    (pairUpdate cfg p1 p2).2.position = p2.position ∧
    (pairUpdate cfg p1 p2).2.velocity = p2.velocity := by
  simp only [pairUpdate]
  refine ⟨?_, ?_, ?_, ?_⟩ <;> (split <;> rfl)

/-- pairUpdate reads neither velocity: blanking the velocities of its
inputs blanks the velocities of its outputs and changes nothing else. -/
theorem pairUpdate_eraseVel (cfg : Config) (p1 p2 : Particle) :
    pairUpdate cfg (eraseVel p1) (eraseVel p2) =
      (eraseVel (pairUpdate cfg p1 p2).1, eraseVel (pairUpdate cfg p1 p2).2) := by
  simp only [pairUpdate, eraseVel]
  by_cases hr : (p1.position - p2.position).length + 1e-20 < 1 <;>
    simp only [if_pos, if_neg, hr, if_true, if_false, ite_true, ite_false] <;> rfl

/-! ### Frame lemmas for the pair fold -/

theorem applyPair_length (cfg : Config) (ps : List Particle) (i j : ℕ) :
    (applyPair cfg ps i j).length = ps.length := by
  simp [applyPair]

theorem pAt_applyPair (cfg : Config) (ps : List Particle) (i j k : ℕ) :
    pAt (applyPair cfg ps i j) k =
      (if j = k ∧ j < ps.length then (pairUpdate cfg (pAt ps i) (pAt ps j)).2
       else if i = k ∧ i < ps.length then (pairUpdate cfg (pAt ps i) (pAt ps j)).1
       else pAt ps k) := by
  show pAt ((ps.set i _).set j _) k = _
  rw [pAt_set, pAt_set, List.length_set]
  rfl

theorem pAt_applyPair_posvel (cfg : Config) (ps : List Particle) (i j k : ℕ) :
    (pAt (applyPair cfg ps i j) k).position = (pAt ps k).position ∧
    (pAt (applyPair cfg ps i j) k).velocity = (pAt ps k).velocity := by
  have hq := pairUpdate_posvel cfg (pAt ps i) (pAt ps j)
  rw [pAt_applyPair]
  split_ifs with h1 h2
  · rw [← h1.1]
    exact ⟨hq.2.2.1, hq.2.2.2⟩
  · rw [← h2.1]
    exact ⟨hq.1, hq.2.1⟩
  · exact ⟨rfl, rfl⟩

theorem foldPairs_length (cfg : Config) (L : List (ℕ × ℕ)) (acc : List Particle) :
    (L.foldl (fun a ij => applyPair cfg a ij.1 ij.2) acc).length = acc.length := by
  induction L generalizing acc with
  | nil => rfl
  | cons ij t ih => rw [List.foldl_cons, ih, applyPair_length]

theorem foldPairs_posvel (cfg : Config) (L : List (ℕ × ℕ)) (acc : List Particle)
    (k : ℕ) :
    (pAt (L.foldl (fun a ij => applyPair cfg a ij.1 ij.2) acc) k).position =
      (pAt acc k).position ∧
    (pAt (L.foldl (fun a ij => applyPair cfg a ij.1 ij.2) acc) k).velocity =
      (pAt acc k).velocity := by
  induction L generalizing acc with
  | nil => exact ⟨rfl, rfl⟩
  | cons ij t ih =>
    rw [List.foldl_cons]
    have h1 := ih (applyPair cfg acc ij.1 ij.2)
    have h2 := pAt_applyPair_posvel cfg acc ij.1 ij.2 k
    exact ⟨h1.1.trans h2.1, h1.2.trans h2.2⟩

theorem pAt_applyPair_eraseVel (cfg : Config) (acc acc' : List Particle) (i j k : ℕ)
    (hlen : acc.length = acc'.length)
    (hpt : ∀ m, eraseVel (pAt acc m) = eraseVel (pAt acc' m)) :
    eraseVel (pAt (applyPair cfg acc i j) k) =
      eraseVel (pAt (applyPair cfg acc' i j) k) := by
  have hpair : (pairUpdate cfg (eraseVel (pAt acc i)) (eraseVel (pAt acc j))) =
      (eraseVel (pairUpdate cfg (pAt acc i) (pAt acc j)).1,
        eraseVel (pairUpdate cfg (pAt acc i) (pAt acc j)).2) :=
    pairUpdate_eraseVel cfg _ _
  have hpair' : (pairUpdate cfg (eraseVel (pAt acc' i)) (eraseVel (pAt acc' j))) =
      (eraseVel (pairUpdate cfg (pAt acc' i) (pAt acc' j)).1,
        eraseVel (pairUpdate cfg (pAt acc' i) (pAt acc' j)).2) :=
    pairUpdate_eraseVel cfg _ _
  rw [hpt i, hpt j] at hpair
  rw [hpair'] at hpair
  rw [pAt_applyPair, pAt_applyPair, ← hlen]
  split_ifs with h1 h2
  · exact congrArg Prod.snd hpair.symm
  · exact congrArg Prod.fst hpair.symm
  · exact hpt k

theorem foldPairs_eraseVel (cfg : Config) (L : List (ℕ × ℕ))
    (acc acc' : List Particle) (hlen : acc.length = acc'.length)
    (hpt : ∀ m, eraseVel (pAt acc m) = eraseVel (pAt acc' m)) (k : ℕ) :
    eraseVel (pAt (L.foldl (fun a ij => applyPair cfg a ij.1 ij.2) acc) k) =
      eraseVel (pAt (L.foldl (fun a ij => applyPair cfg a ij.1 ij.2) acc') k) := by
  induction L generalizing acc acc' with
  | nil => exact hpt k
  | cons ij t ih =>
    rw [List.foldl_cons, List.foldl_cons]
    exact ih (applyPair cfg acc ij.1 ij.2) (applyPair cfg acc' ij.1 ij.2)
      (by rw [applyPair_length, applyPair_length, hlen])
      (fun m => pAt_applyPair_eraseVel cfg acc acc' ij.1 ij.2 m hlen hpt)

theorem computeFields_length (cfg : Config) (ps : List Particle) :
    (computeFields cfg ps).length = ps.length := by
  show ((allPairs ps.length).foldl _ (ps.map (resetFields cfg))).length = _
  rw [foldPairs_length, List.length_map]

theorem computeFields_def (cfg : Config) (ps : List Particle) :
    computeFields cfg ps =
      (allPairs ps.length).foldl (fun acc ij => applyPair cfg acc ij.1 ij.2)
        (ps.map (resetFields cfg)) := rfl

/-- The field computation never changes a particle's position or
velocity (shared between the frame claim and the step claim). -/
theorem computeFields_posvel (cfg : Config) (ps : List Particle) (k : ℕ) :
    (pAt (computeFields cfg ps) k).position = (pAt ps k).position ∧
    (pAt (computeFields cfg ps) k).velocity = (pAt ps k).velocity := by
  by_cases hk : k < ps.length
  · have h1 := foldPairs_posvel cfg (allPairs ps.length) (ps.map (resetFields cfg)) k
    rw [pAt_map_lt _ _ _ hk] at h1
    exact h1
  · have h2 : pAt (computeFields cfg ps) k = default := by
      refine pAt_of_le _ _ ?_
      rw [computeFields_length]
      omega
    rw [h2, pAt_of_le ps k (not_lt.mp hk)]
    exact ⟨rfl, rfl⟩

/-- Velocity-blanked reset particles agree whenever positions agree. -/
theorem eraseVel_resetFields_congr (cfg : Config) (p q : Particle)
    (h : p.position = q.position) :
    eraseVel (resetFields cfg p) = eraseVel (resetFields cfg q) := by
  simp only [eraseVel, resetFields]
  rw [h]

/-- Unfolding of one velocity-then-position update of a single
particle. -/
theorem moveWrap_integrate (cfg : Config) (p : Particle) :
    moveWrap cfg (integrateVelocity cfg p) =
      { p with
        velocity := cfg.damping • (p.velocity + cfg.dt • particleForce cfg p)
        position := wrapVec cfg.worldSize (p.position +
          cfg.dt • (cfg.damping • (p.velocity + cfg.dt • particleForce cfg p))) } := rfl

/-- The wrap is the identity on coordinates already inside the closed
interval from -worldSize/2 to worldSize/2. -/
theorem wrapCoord_eq_self (ws x : ℝ) (h1 : -(ws / 2) ≤ x) (h2 : x ≤ ws / 2) :
    wrapCoord ws x = x := by
  simp only [wrapCoord]
  rw [if_neg (not_lt.mpr h1), if_neg (not_lt.mpr h2)]

/-! ### Claim C5 -/

/-- C5: for sigma different from 0, peakFunction r mu sigma w returns
value w / (1 + t^2/32)^32 with t = (r - mu)/sigma — the documented
bounded polynomial approximation of w exp(-t^2) — and the returned
derivative equals -2 t (returned value) / sigma exactly. -/
theorem C5_peak_value_and_derivative (r mu sigma w : ℝ) (hsig : sigma ≠ 0) :
    (peakFunction r mu sigma w).1 = w / (1 + ((r - mu) / sigma) ^ 2 / 32) ^ 32 ∧
    (peakFunction r mu sigma w).2 =
      -2 * ((r - mu) / sigma) * (peakFunction r mu sigma w).1 / sigma := by
  constructor
  · have h1 : (peakFunction r mu sigma w).1 =
        w / fastExp (((r - mu) / sigma) * ((r - mu) / sigma)) := rfl
    rw [h1, fastExp_eq_pow, ← pow_two]
  · rfl

/-- Witness for C5 at the source kernel parameters mu = 4, sigma = 1. -/
theorem C5_witness :
    (peakFunction 0 4 1 1).1 = 1 / (1 + ((0 - 4) / 1) ^ 2 / 32) ^ 32 ∧
    (peakFunction 0 4 1 1).2 = -2 * ((0 - 4) / 1) * (peakFunction 0 4 1 1).1 / 1 :=
  C5_peak_value_and_derivative 0 4 1 1 (by norm_num)

/-! ### Claim C6 -/

/-- C6: repulsionFunction r c_rep returns (0.5 c_rep t^2, -c_rep t)
with t = max (1 - r) 0, and both components are exactly zero for every
r at least 1. -/
theorem C6_repulsion_form (r c_rep : ℝ) :
    repulsionFunction r c_rep =
      (0.5 * c_rep * max (1 - r) 0 * max (1 - r) 0, -c_rep * max (1 - r) 0) ∧
    (1 ≤ r → repulsionFunction r c_rep = (0, 0)) := by
  refine ⟨rfl, fun hr => ?_⟩
  have h : max (1 - r) 0 = 0 := max_eq_right (by linarith)
  have h2 : repulsionFunction r c_rep =
      (0.5 * c_rep * max (1 - r) 0 * max (1 - r) 0, -c_rep * max (1 - r) 0) := rfl
  rw [h2, h]
  norm_num

/-- Witness for C6 at r = 2: both components vanish. -/
theorem C6_witness : repulsionFunction 2 1 = (0, 0) :=
  (C6_repulsion_form 2 1).2 (by norm_num)

/-! ### Claim C9 -/

/-- fastExp is at least 1 on nonnegative inputs (the only inputs the
simulation feeds it, since its argument is always a square). -/
theorem one_le_fastExp {s : ℝ} (hs : 0 ≤ s) : 1 ≤ fastExp s := by
  rw [fastExp_eq_pow]
  calc (1 : ℝ) = 1 ^ 32 := by norm_num
    _ ≤ (1 + s / 32) ^ 32 := pow_le_pow_left₀ (by norm_num) (by linarith) 32

/-- C9: the floored pair distance is strictly positive even for
coincident particles; the denominator fastExp (t*t) = (1 + t^2/32)^32
inside peakFunction is at least 1 for every real t; hence for positive
weight w the peak value lies in (0, w]. -/
theorem C9_no_division_by_zero (u v : Vec3) (t r mu sigma w : ℝ) (hw : 0 < w) :
    0 < (u - v).length + 1e-20 ∧
    1 ≤ fastExp (t * t) ∧
    0 < (peakFunction r mu sigma w).1 ∧ (peakFunction r mu sigma w).1 ≤ w := by
  have hlen : 0 ≤ (u - v).length := Real.sqrt_nonneg _
  have hE : 1 ≤ fastExp (((r - mu) / sigma) * ((r - mu) / sigma)) :=
    one_le_fastExp (mul_self_nonneg _)
  have hval : (peakFunction r mu sigma w).1 =
      w / fastExp (((r - mu) / sigma) * ((r - mu) / sigma)) := rfl
  refine ⟨by positivity, one_le_fastExp (mul_self_nonneg t), ?_, ?_⟩
  · rw [hval]
    exact div_pos hw (lt_of_lt_of_le one_pos hE)
  · rw [hval]
    exact div_le_self hw.le hE

/-- Witness for C9 at coincident points and the growth parameters. -/
theorem C9_witness :
    0 < ((0 : Vec3) - 0).length + 1e-20 ∧
    1 ≤ fastExp (0 * 0) ∧
    0 < (peakFunction 0 0 1 1).1 ∧ (peakFunction 0 0 1 1).1 ≤ 1 :=
  C9_no_division_by_zero 0 0 0 0 0 1 1 (by norm_num)

/-! ### Claim C2 -/

/-- C2: in one pair interaction, the gradient contribution received by
p1 is the exact negation of the one received by p2 (for both the
repulsion and the kernel gradient), the scalar contributions to the two
particles are identical, the kernel contribution is always applied, and
the repulsion contribution is applied exactly when the floored distance
is below 1. -/
theorem C2_pair_antisymmetry (cfg : Config) (p1 p2 : Particle) :
    (pairUpdate cfg p1 p2).1.R_grad - p1.R_grad =
      -((pairUpdate cfg p1 p2).2.R_grad - p2.R_grad) ∧
    (pairUpdate cfg p1 p2).1.U_grad - p1.U_grad =
      -((pairUpdate cfg p1 p2).2.U_grad - p2.U_grad) ∧
    (pairUpdate cfg p1 p2).1.R_val - p1.R_val =
      (pairUpdate cfg p1 p2).2.R_val - p2.R_val ∧
    (pairUpdate cfg p1 p2).1.U_val - p1.U_val =
      (pairUpdate cfg p1 p2).2.U_val - p2.U_val ∧
    (pairUpdate cfg p1 p2).1.U_val - p1.U_val =
      (peakFunction ((p1.position - p2.position).length + 1e-20)
        cfg.mu_k cfg.sigma_k cfg.w_k).1 ∧
    (pairUpdate cfg p1 p2).1.R_val - p1.R_val =
      (if (p1.position - p2.position).length + 1e-20 < 1
        then (repulsionFunction ((p1.position - p2.position).length + 1e-20) cfg.c_rep).1
        else 0) := by
  by_cases hr : (p1.position - p2.position).length + 1e-20 < 1
  · simp only [pairUpdate, if_pos hr]
    refine ⟨?_, ?_, by ring, by ring, by ring, by ring⟩
    · ext <;> simp
    · ext <;> simp
  · simp only [pairUpdate, if_neg hr]
    refine ⟨?_, ?_, by ring, by ring, by ring, by ring⟩
    · ext <;> simp
    · ext <;> simp

/-! ### Claim C10 -/

/-- C10: the field computation keeps the store's length and every
particle's position and velocity, and the four accumulators it produces
depend only on the particles' positions and the configuration — two
stores that agree on positions (with arbitrary velocities and arbitrary
leftover accumulator contents) receive identical accumulators. -/
theorem C10_field_computer_frame (cfg : Config) (ps qs : List Particle) :
    (computeFields cfg ps).length = ps.length ∧
    (∀ k, (pAt (computeFields cfg ps) k).position = (pAt ps k).position ∧
      (pAt (computeFields cfg ps) k).velocity = (pAt ps k).velocity) ∧
    (ps.length = qs.length →
      (∀ k, (pAt ps k).position = (pAt qs k).position) →
      ∀ k, (pAt (computeFields cfg ps) k).R_val = (pAt (computeFields cfg qs) k).R_val ∧
        (pAt (computeFields cfg ps) k).U_val = (pAt (computeFields cfg qs) k).U_val ∧
        (pAt (computeFields cfg ps) k).R_grad = (pAt (computeFields cfg qs) k).R_grad ∧
        (pAt (computeFields cfg ps) k).U_grad = (pAt (computeFields cfg qs) k).U_grad) := by
  refine ⟨computeFields_length cfg ps, computeFields_posvel cfg ps, ?_⟩
  intro hlen hpos k
  have hpt : ∀ m, eraseVel (pAt (ps.map (resetFields cfg)) m) =
      eraseVel (pAt (qs.map (resetFields cfg)) m) := by
    intro m
    by_cases hm : m < ps.length
    · rw [pAt_map_lt _ _ _ hm, pAt_map_lt _ _ _ (hlen ▸ hm)]
      exact eraseVel_resetFields_congr cfg _ _ (hpos m)
    · rw [pAt_of_le _ m (by simpa using not_lt.mp hm),
        pAt_of_le _ m (by rw [List.length_map, ← hlen]; exact not_lt.mp hm)]
  have hmain := foldPairs_eraseVel cfg (allPairs ps.length)
    (ps.map (resetFields cfg)) (qs.map (resetFields cfg))
    (by rw [List.length_map, List.length_map, hlen]) hpt k
  have hq : computeFields cfg qs =
      (allPairs ps.length).foldl (fun acc ij => applyPair cfg acc ij.1 ij.2)
        (qs.map (resetFields cfg)) := by
    rw [computeFields_def, hlen]
  rw [← computeFields_def cfg ps, ← hq] at hmain
  have h1 := congrArg Particle.R_val hmain
  have h2 := congrArg Particle.U_val hmain
  have h3 := congrArg Particle.R_grad hmain
  have h4 := congrArg Particle.U_grad hmain
  exact ⟨h1, h2, h3, h4⟩

/-- Witness for C10: a one-particle store, against the same store with
a different velocity and different leftover accumulators. -/
theorem C10_witness :
    (computeFields sourceConfig [originParticle]).length = [originParticle].length ∧
    (∀ k, (pAt (computeFields sourceConfig [originParticle]) k).position =
        (pAt [originParticle] k).position ∧
      (pAt (computeFields sourceConfig [originParticle]) k).velocity =
        (pAt [originParticle] k).velocity) ∧
    (∀ k, (pAt (computeFields sourceConfig [originParticle]) k).R_val =
        (pAt (computeFields sourceConfig [movingParticle]) k).R_val ∧
      (pAt (computeFields sourceConfig [originParticle]) k).U_val =
        (pAt (computeFields sourceConfig [movingParticle]) k).U_val ∧
      (pAt (computeFields sourceConfig [originParticle]) k).R_grad =
        (pAt (computeFields sourceConfig [movingParticle]) k).R_grad ∧
      (pAt (computeFields sourceConfig [originParticle]) k).U_grad =
        (pAt (computeFields sourceConfig [movingParticle]) k).U_grad) := by
  have h := C10_field_computer_frame sourceConfig [originParticle] [movingParticle]
  exact ⟨h.1, h.2.1, h.2.2 rfl (fun k => by cases k <;> rfl)⟩

/-! ### Claim C1 -/

/-- C1: one step first computes the field snapshot from the original
positions, then gives every particle the velocity
damping (old velocity + force dt), where the force is particleForce of
that particle's snapshot record (growth derivative at its accumulated
U_val times U_grad, minus R_grad), and only then moves every particle
from its original position by new velocity times dt (followed by the
boundary wrap); no position enters the step other than through the
snapshot. -/
theorem C1_step_structure (cfg : Config) (ps : List Particle) (k : ℕ)
    (hk : k < ps.length) :
    (simulationStep cfg ps).length = ps.length ∧
    pAt (simulationStep cfg ps) k =
      { pAt (computeFields cfg ps) k with
        velocity := cfg.damping • ((pAt ps k).velocity +
          cfg.dt • particleForce cfg (pAt (computeFields cfg ps) k))
        position := wrapVec cfg.worldSize ((pAt ps k).position +
          cfg.dt • (cfg.damping • ((pAt ps k).velocity +
            cfg.dt • particleForce cfg (pAt (computeFields cfg ps) k)))) } := by
  have hlen : (computeFields cfg ps).length = ps.length := computeFields_length cfg ps
  have hslen : (simulationStep cfg ps).length = ps.length := by
    show (((computeFields cfg ps).map _).map _).length = _
    rw [List.length_map, List.length_map, hlen]
  refine ⟨hslen, ?_⟩
  have e1 : pAt (simulationStep cfg ps) k =
      moveWrap cfg (integrateVelocity cfg (pAt (computeFields cfg ps) k)) := by
    show pAt (((computeFields cfg ps).map (integrateVelocity cfg)).map (moveWrap cfg)) k = _
    rw [pAt_map_lt _ _ _ (by rw [List.length_map, hlen]; exact hk),
      pAt_map_lt _ _ _ (by rw [hlen]; exact hk)]
  have hpv := computeFields_posvel cfg ps k
  rw [e1, moveWrap_integrate, hpv.1, hpv.2]

/-- Witness for C1 on a one-particle store. -/
theorem C1_witness :
    (simulationStep sourceConfig [originParticle]).length = [originParticle].length ∧
    pAt (simulationStep sourceConfig [originParticle]) 0 =
      { pAt (computeFields sourceConfig [originParticle]) 0 with
        velocity := sourceConfig.damping • ((pAt [originParticle] 0).velocity +
          sourceConfig.dt • particleForce sourceConfig
            (pAt (computeFields sourceConfig [originParticle]) 0))
        position := wrapVec sourceConfig.worldSize ((pAt [originParticle] 0).position +
          sourceConfig.dt • (sourceConfig.damping • ((pAt [originParticle] 0).velocity +
            sourceConfig.dt • particleForce sourceConfig
              (pAt (computeFields sourceConfig [originParticle]) 0)))) } :=
  C1_step_structure sourceConfig [originParticle] 0 (by norm_num)

/-! ### Claim C7 -/

/-- C7: with a single particle at rest inside the wrap domain, one step
leaves U_val at the self-term peakFunction 0 mu_k sigma_k w_k, leaves
both gradient accumulators zero, makes the force the zero vector, keeps
the velocity exactly zero and leaves the position unchanged. -/
theorem C7_single_particle (cfg : Config) (p : Particle) (hv : p.velocity = 0)
    (hx : -(cfg.worldSize / 2) ≤ p.position.x ∧ p.position.x < cfg.worldSize / 2)
    (hy : -(cfg.worldSize / 2) ≤ p.position.y ∧ p.position.y < cfg.worldSize / 2)
    (hz : -(cfg.worldSize / 2) ≤ p.position.z ∧ p.position.z < cfg.worldSize / 2) :
    particleForce cfg (pAt (computeFields cfg [p]) 0) = 0 ∧
    simulationStep cfg [p] =
      [{ p with
          velocity := 0
          R_val := (repulsionFunction 0 cfg.c_rep).1
          U_val := (peakFunction 0 cfg.mu_k cfg.sigma_k cfg.w_k).1
          R_grad := 0
          U_grad := 0 }] := by
  have hforce : particleForce cfg (resetFields cfg p) = 0 := by
    show (peakFunction _ cfg.mu_g cfg.sigma_g 1).2 • (0 : Vec3) - (0 : Vec3) = 0
    ext <;> simp
  constructor
  · show particleForce cfg (resetFields cfg p) = 0
    exact hforce
  · show [moveWrap cfg (integrateVelocity cfg (resetFields cfg p))] = _
    have hvel : cfg.damping • ((resetFields cfg p).velocity +
        cfg.dt • particleForce cfg (resetFields cfg p)) = 0 := by
      rw [show (resetFields cfg p).velocity = p.velocity from rfl, hv, hforce]
      ext <;> simp
    rw [moveWrap_integrate, hvel]
    have hpos : (resetFields cfg p).position + cfg.dt • (0 : Vec3) =
        p.position := by
      ext <;> simp [resetFields]
    rw [hpos]
    have hwrap : wrapVec cfg.worldSize p.position = p.position := by
      simp only [wrapVec]
      ext
      · exact wrapCoord_eq_self _ _ hx.1 hx.2.le
      · exact wrapCoord_eq_self _ _ hy.1 hy.2.le
      · exact wrapCoord_eq_self _ _ hz.1 hz.2.le
    rw [hwrap]
    rfl

/-- Witness for C7: the resting origin particle under the source
configuration. -/
theorem C7_witness :
    particleForce sourceConfig (pAt (computeFields sourceConfig [originParticle]) 0) = 0 ∧
    simulationStep sourceConfig [originParticle] =
      [{ originParticle with
          velocity := 0
          R_val := (repulsionFunction 0 sourceConfig.c_rep).1
          U_val := (peakFunction 0 sourceConfig.mu_k sourceConfig.sigma_k
            sourceConfig.w_k).1
          R_grad := 0
          U_grad := 0 }] :=
  C7_single_particle sourceConfig originParticle rfl
    (by norm_num [originParticle, sourceConfig])
    (by norm_num [originParticle, sourceConfig])
    (by norm_num [originParticle, sourceConfig])

/-! ### Claim C3 -/

/-- Counterexample to C3 as stated: a lone particle moved to exactly
worldSize/2 by one step is left there by the Boundary Wrapper, so after
the step its x coordinate does not lie in the half-open interval
from -worldSize/2 (inclusive) to worldSize/2 (exclusive). -/
theorem C3_counterexample :
    (pAt (simulationStep wrapCexConfig [wrapCexParticle]) 0).position.x =
      wrapCexConfig.worldSize / 2 ∧
    ¬ (pAt (simulationStep wrapCexConfig [wrapCexParticle]) 0).position.x <
      wrapCexConfig.worldSize / 2 := by
  have hforce : particleForce wrapCexConfig
      (resetFields wrapCexConfig wrapCexParticle) = 0 := by
    show (peakFunction _ _ _ 1).2 • (0 : Vec3) - (0 : Vec3) = 0
    ext <;> simp
  have e : pAt (simulationStep wrapCexConfig [wrapCexParticle]) 0 =
      moveWrap wrapCexConfig (integrateVelocity wrapCexConfig
        (resetFields wrapCexConfig wrapCexParticle)) := rfl
  rw [e, moveWrap_integrate, hforce]
  constructor
  · show wrapCoord wrapCexConfig.worldSize _ = wrapCexConfig.worldSize / 2
    norm_num [wrapCexConfig, sourceConfig, wrapCexParticle, resetFields, wrapCoord]
  · show ¬ wrapCoord wrapCexConfig.worldSize _ < wrapCexConfig.worldSize / 2
    norm_num [wrapCexConfig, sourceConfig, wrapCexParticle, resetFields, wrapCoord]

/-- C3 amended: the wrapped interval is closed at both ends, not
half-open, and re-entry is only guaranteed when the pre-wrap coordinate
overshoots by at most worldSize.  For positive worldSize, a pre-wrap
coordinate within worldSize of the domain lands in the closed interval
from -worldSize/2 to worldSize/2, and a coordinate that left through
the positive face by an excess of at most worldSize re-enters at
-worldSize/2 + excess. -/
theorem C3_wrap_amended (ws x : ℝ) (hws : 0 < ws) :
    (-(3 * ws / 2) ≤ x → x ≤ 3 * ws / 2 →
      -(ws / 2) ≤ wrapCoord ws x ∧ wrapCoord ws x ≤ ws / 2) ∧
    (ws / 2 < x → x ≤ 3 * ws / 2 →
      wrapCoord ws x = -(ws / 2) + (x - ws / 2)) := by
  constructor
  · intro hlo hhi
    simp only [wrapCoord]
    split_ifs with h1 h2 h2 <;> constructor <;> linarith
  · intro hgt hhi
    simp only [wrapCoord]
    split_ifs with h1 h2 <;> linarith

/-- Witness for the amended C3 at worldSize 25 and pre-wrap
coordinate 13. -/
theorem C3_amended_witness :
    (-(25 / 2 : ℝ) ≤ wrapCoord 25 13 ∧ wrapCoord 25 13 ≤ 25 / 2) ∧
    wrapCoord 25 13 = -(25 / 2) + (13 - 25 / 2) :=
  ⟨(C3_wrap_amended 25 13 (by norm_num)).1 (by norm_num) (by norm_num),
   (C3_wrap_amended 25 13 (by norm_num)).2 (by norm_num) (by norm_num)⟩

/-! ### Claim C4 -/

/-- Counterexample to C4 as stated: for a configuration with negative
sigma_k the claim demands a ConfigError before any particle is created,
but initParticles performs no validation and happily creates the three
requested particles. -/
theorem C4_counterexample :
    badSigmaConfig.sigma_k ≤ 0 ∧
    (initParticles badSigmaConfig (fun _ => 0)).length = 3 := by
  constructor
  · norm_num [badSigmaConfig, sourceConfig]
  · simp [initParticles, badSigmaConfig]

/-- C4 amended: initParticles performs no configuration validation and
never fails; for every configuration — valid or not, negative count
included — it returns a store of exactly particleCount.toNat
(that is, max(particleCount, 0)) particles, each with zero velocity and
all four field accumulators zero. -/
theorem C4_init_amended (cfg : Config) (rand : ℕ → Vec3) :
    (initParticles cfg rand).length = cfg.particleCount.toNat ∧
    ∀ k, k < cfg.particleCount.toNat →
      (pAt (initParticles cfg rand) k).velocity = 0 ∧
      (pAt (initParticles cfg rand) k).R_val = 0 ∧
      (pAt (initParticles cfg rand) k).U_val = 0 ∧
      (pAt (initParticles cfg rand) k).R_grad = 0 ∧
      (pAt (initParticles cfg rand) k).U_grad = 0 := by
  refine ⟨by simp [initParticles], ?_⟩
  intro k hk
  have hget : pAt (initParticles cfg rand) k = mkParticle cfg (rand k) := by
    simp [pAt, initParticles, List.getD_eq_getElem?_getD, List.getElem?_map,
      List.getElem?_range hk]
  rw [hget]
  exact ⟨rfl, rfl, rfl, rfl, rfl⟩

/-- Witness for the amended C4: the store size holds unconditionally
both for the source configuration (200 particles) and for a negative
particle count (empty store); the per-particle conclusions are
exercised at index 0 of the source configuration. -/
theorem C4_amended_witness :
    (initParticles sourceConfig (fun _ => 0)).length =
      sourceConfig.particleCount.toNat ∧
    (initParticles negCountConfig (fun _ => 0)).length =
      negCountConfig.particleCount.toNat ∧
    (pAt (initParticles sourceConfig (fun _ => 0)) 0).velocity = 0 ∧
    (pAt (initParticles sourceConfig (fun _ => 0)) 0).R_val = 0 ∧
    (pAt (initParticles sourceConfig (fun _ => 0)) 0).U_val = 0 ∧
    (pAt (initParticles sourceConfig (fun _ => 0)) 0).R_grad = 0 ∧
    (pAt (initParticles sourceConfig (fun _ => 0)) 0).U_grad = 0 :=
  ⟨(C4_init_amended sourceConfig (fun _ => 0)).1,
   (C4_init_amended negCountConfig (fun _ => 0)).1,
   (C4_init_amended sourceConfig (fun _ => 0)).2 0 (by norm_num [sourceConfig])⟩

/-! ### Claim C8 -/

/-- Resetting two mirror-placed particles yields MirrorP states. -/
theorem resetFields_mirror (cfg : Config) (a b : Particle)
    (hp : b.position = -a.position) (hv : b.velocity = -a.velocity) :
    MirrorP (resetFields cfg a) (resetFields cfg b) :=
  ⟨hp, hv, rfl, rfl, by ext <;> simp [resetFields], by ext <;> simp [resetFields]⟩

/-- A pair interaction of MirrorP inputs produces MirrorP outputs,
whatever the separation is. -/
theorem pairUpdate_mirror (cfg : Config) (a b : Particle) (h : MirrorP a b) :
    MirrorP (pairUpdate cfg a b).1 (pairUpdate cfg a b).2 := by
  obtain ⟨hp, hv, hR, hU, hRg, hUg⟩ := h
  have hq := pairUpdate_posvel cfg a b
  refine ⟨?_, ?_, ?_, ?_, ?_, ?_⟩
  · rw [hq.2.2.1, hq.1, hp]
  · rw [hq.2.2.2, hq.2.1, hv]
  · by_cases hr : (a.position - b.position).length + 1e-20 < 1
    · simp only [pairUpdate, if_pos hr]
      rw [hR]
    · simp only [pairUpdate, if_neg hr]
      exact hR
  · by_cases hr : (a.position - b.position).length + 1e-20 < 1
    · simp only [pairUpdate, if_pos hr]
      rw [hU]
    · simp only [pairUpdate, if_neg hr]
      rw [hU]
  · by_cases hr : (a.position - b.position).length + 1e-20 < 1
    · simp only [pairUpdate, if_pos hr]
      rw [hRg]
      ext <;> simp <;> ring
    · simp only [pairUpdate, if_neg hr]
      exact hRg
  · by_cases hr : (a.position - b.position).length + 1e-20 < 1
    · simp only [pairUpdate, if_pos hr]
      rw [hUg]
      ext <;> simp <;> ring
    · simp only [pairUpdate, if_neg hr]
      rw [hUg]
      ext <;> simp <;> ring

/-- MirrorP states feel exactly opposite forces. -/
theorem particleForce_mirror (cfg : Config) (p q : Particle)
    (hU : q.U_val = p.U_val) (hUg : q.U_grad = -p.U_grad)
    (hRg : q.R_grad = -p.R_grad) :
    particleForce cfg q = -particleForce cfg p := by
  simp only [particleForce, hU, hUg, hRg]
  ext <;> simp <;> ring

/-- The velocity update preserves MirrorP. -/
theorem integrateVelocity_mirror (cfg : Config) (p q : Particle)
    (h : MirrorP p q) :
    MirrorP (integrateVelocity cfg p) (integrateVelocity cfg q) := by
  obtain ⟨hp, hv, hR, hU, hRg, hUg⟩ := h
  have hf := particleForce_mirror cfg p q hU hUg hRg
  refine ⟨hp, ?_, hR, hU, hRg, hUg⟩
  show cfg.damping • (q.velocity + cfg.dt • particleForce cfg q) =
    -(cfg.damping • (p.velocity + cfg.dt • particleForce cfg p))
  rw [hv, hf]
  ext <;> simp <;> ring

/-- The single-pass wrap is an odd function of the coordinate when
worldSize is positive. -/
theorem wrapCoord_neg (ws x : ℝ) (hws : 0 < ws) :
    wrapCoord ws (-x) = -wrapCoord ws x := by
  simp only [wrapCoord]
  split_ifs <;> linarith

/-- The componentwise wrap is odd for positive worldSize. -/
theorem wrapVec_neg (ws : ℝ) (v : Vec3) (hws : 0 < ws) :
    wrapVec ws (-v) = -wrapVec ws v := by
  ext <;> simp only [wrapVec, Vec3.neg_x, Vec3.neg_y, Vec3.neg_z] <;>
    exact wrapCoord_neg ws _ hws

/-- The position update and wrap preserve MirrorP for positive
worldSize. -/
theorem moveWrap_mirror (cfg : Config) (p q : Particle)
    (hws : 0 < cfg.worldSize) (h : MirrorP p q) :
    MirrorP (moveWrap cfg p) (moveWrap cfg q) := by
  obtain ⟨hp, hv, hR, hU, hRg, hUg⟩ := h
  refine ⟨?_, hv, hR, hU, hRg, hUg⟩
  show wrapVec cfg.worldSize (q.position + cfg.dt • q.velocity) =
    -wrapVec cfg.worldSize (p.position + cfg.dt • p.velocity)
  rw [hp, hv]
  have hneg : -p.position + cfg.dt • -p.velocity =
      -(p.position + cfg.dt • p.velocity) := by
    ext <;> simp <;> ring
  rw [hneg, wrapVec_neg _ _ hws]

/-- Evaluated form of the field computation on a two-particle store. -/
theorem computeFields_pair (cfg : Config) (a b : Particle) :
    computeFields cfg [a, b] =
      [(pairUpdate cfg (resetFields cfg a) (resetFields cfg b)).1,
       (pairUpdate cfg (resetFields cfg a) (resetFields cfg b)).2] := rfl

/-- Evaluated form of one step on a two-particle store. -/
theorem simulationStep_pair (cfg : Config) (a b : Particle) :
    simulationStep cfg [a, b] =
      [moveWrap cfg (integrateVelocity cfg
        (pairUpdate cfg (resetFields cfg a) (resetFields cfg b)).1),
       moveWrap cfg (integrateVelocity cfg
        (pairUpdate cfg (resetFields cfg a) (resetFields cfg b)).2)] := rfl

/-- Mirror pairs stay mirror pairs under any number of steps. -/
theorem stepN_mirror (cfg : Config) (hws : 0 < cfg.worldSize) :
    ∀ (n : ℕ) (a b : Particle), b.position = -a.position →
    b.velocity = -a.velocity →
    ∃ a' b', stepN cfg n [a, b] = [a', b'] ∧
      b'.position = -a'.position ∧ b'.velocity = -a'.velocity := by
  intro n
  induction n with
  | zero => exact fun a b hp hv => ⟨a, b, rfl, hp, hv⟩
  | succ m ih =>
    intro a b hp hv
    have hm1 := pairUpdate_mirror cfg _ _ (resetFields_mirror cfg a b hp hv)
    have hm2a := integrateVelocity_mirror cfg _ _ hm1
    have hm3 := moveWrap_mirror cfg _ _ hws hm2a
    have hstep : stepN cfg (m + 1) [a, b] =
        stepN cfg m (simulationStep cfg [a, b]) := rfl
    rw [hstep, simulationStep_pair]
    exact ih _ _ hm3.1 hm3.2.1

/-- C8: a two-particle store whose positions and velocities are exact
negations of each other keeps positions (and velocities) exact
negations of each other after any number of steps, boundary wrap
included, for positive worldSize. -/
theorem C8_two_particle_mirror (cfg : Config) (a b : Particle) (n : ℕ)
    (hws : 0 < cfg.worldSize) (hp : b.position = -a.position)
    (hv : b.velocity = -a.velocity) :
    (stepN cfg n [a, b]).length = 2 ∧
    (pAt (stepN cfg n [a, b]) 1).position = -(pAt (stepN cfg n [a, b]) 0).position ∧
    (pAt (stepN cfg n [a, b]) 1).velocity = -(pAt (stepN cfg n [a, b]) 0).velocity := by
  obtain ⟨a', b', he, hp', hv'⟩ := stepN_mirror cfg hws n a b hp hv
  rw [he]
  exact ⟨rfl, hp', hv'⟩

/-- Witness for C8: the mirror pair under the source configuration,
three steps. -/
theorem C8_witness :
    (stepN sourceConfig 3 [mirrorA, mirrorB]).length = 2 ∧
    (pAt (stepN sourceConfig 3 [mirrorA, mirrorB]) 1).position =
      -(pAt (stepN sourceConfig 3 [mirrorA, mirrorB]) 0).position ∧
    (pAt (stepN sourceConfig 3 [mirrorA, mirrorB]) 1).velocity =
      -(pAt (stepN sourceConfig 3 [mirrorA, mirrorB]) 0).velocity :=
  C8_two_particle_mirror sourceConfig mirrorA mirrorB 3
    (by norm_num [sourceConfig])
    (by ext <;> norm_num [mirrorA, mirrorB])
    (by ext <;> norm_num [mirrorA, mirrorB])

end

end Emergence
